import Mathlib

/-!
# Verification of the acr-builder core

Shallow embedding, in Lean, of the parts of the acr-builder repository that
the specification's claims are about:

* `util`'s tag-prefixing helpers (`PrefixRegistryToImageName`, `PrefixTags`);
* the `builder` package's `processVertex` worker body, modelled as the list
  of effects (status writes, error-channel sends, child spawns, completion
  sends) it performs;
* the `RunTask` completion barrier (the `select` loop over the context, the
  unbuffered error channel and the per-step completion channels), modelled
  as a small operational semantics driven by an explicit interleaving
  schedule;
* the container-engine invocations performed by `runStep` and by `RunTask`'s
  pre-execution phase, modelled as invocation traces recording which
  process-manager entry point is used with which retry policy.

Go strings are modelled as `List Char` and Go `error` values as
`Option GoError`, where `GoError` is the error message.  `strings.HasPrefix
s p` is modelled as `p.isPrefixOf s` on the character lists.
-/

/-- Go strings, modelled as lists of characters. -/
abbrev Str : Type := List Char

/-- A Go `error` value, identified by its message string. -/
abbrev GoError : Type := Str

/-- Model of `github.com/pkg/errors.Wrap`/`Wrapf`: the wrapping message is
prepended to the wrapped error's message, separated by `": "`. -/
def wrapErr (msg : Str) (e : GoError) : GoError := msg ++ ": ".data ++ e

/-! ## The `util` package (src/unnamed/part_000) -/

/-- The literal `"library/"` tested by `PrefixRegistryToImageName`. -/
def libraryLit : Str := "library/".data

/-- Embedding of `util.PrefixRegistryToImageName`: returns the image
unchanged when the registry is empty or when the image already starts with
the registry string or with `library/`; otherwise returns
`registry + "/" + img` (Go's `fmt.Sprintf("%s/%s", registry, img)`). -/
def PrefixRegistryToImageName (registry img : Str) : Str :=
  if registry = [] then img
  else if !(registry.isPrefixOf img) && !(libraryLit.isPrefixOf img) then
    registry ++ '/' :: img
  else img

/-- Embedding of Go `strings.Fields`: the maximal runs of non-whitespace
characters, in order. -/
def stringsFields (s : Str) : List Str :=
  (s.splitOnP (fun c => c.isWhitespace)).filter (fun w => !w.isEmpty)

/-- The loop of `util.PrefixTags`, one field at a time.  `prev` is the field
at index `i-1` as the Go loop sees it, i.e. after any mutation performed by
an earlier iteration.  Returns the rewritten remaining fields together with
the collected tags, in order. -/
def prefixTagsLoop (registry : Str) : Str → List Str → List Str × List Str
  | _, [] => ([], [])
  | prev, f :: rest =>
    if prev = "-t".data ∨ prev = "--tag".data then
      let f2 := PrefixRegistryToImageName registry f
      let p := prefixTagsLoop registry f2 rest
      (f2 :: p.1, f2 :: p.2)
    else
      let p := prefixTagsLoop registry f rest
      (f :: p.1, p.2)

/-- Embedding of `util.PrefixTags`: splits the command into fields, rewrites
every field that (in the mutated field array) immediately follows a `-t` or
`--tag` field through `PrefixRegistryToImageName`, and returns the fields
re-joined with single spaces together with the rewritten tags in order. -/
def PrefixTags (cmd registry : Str) : Str × List Str :=
  match stringsFields cmd with
  | [] => ([], [])
  | f0 :: rest =>
    let p := prefixTagsLoop registry f0 rest
    (List.intercalate [' '] (f0 :: p.1), p.2)

/-- The claim's per-tag rewriting function, written from the spec's words
for claim C7: the tag is left alone exactly when it already starts with
`<registry>/` (with the slash) or with `library/`. -/
def claimTagRewrite (registry img : Str) : Str :=
  if (registry ++ ['/']).isPrefixOf img || libraryLit.isPrefixOf img then img
  else registry ++ '/' :: img

/-- The loop of the claimed `PrefixTags` behaviour, with `claimTagRewrite`
as the per-tag function. -/
def claimPrefixTagsLoop (registry : Str) : Str → List Str → List Str × List Str
  | _, [] => ([], [])
  | prev, f :: rest =>
    if prev = "-t".data ∨ prev = "--tag".data then
      let f2 := claimTagRewrite registry f
      let p := claimPrefixTagsLoop registry f2 rest
      (f2 :: p.1, f2 :: p.2)
    else
      let p := claimPrefixTagsLoop registry f rest
      (f :: p.1, p.2)

/-- The behaviour claim C7 ascribes to `PrefixTags`, written from the spec's
words: like `PrefixTags` but leaving a tag alone exactly when it starts with
`<registry>/` or `library/`. -/
def claimPrefixTags (cmd registry : Str) : Str × List Str :=
  match stringsFields cmd with
  | [] => ([], [])
  | f0 :: rest =>
    let p := claimPrefixTagsLoop registry f0 rest
    (List.intercalate [' '] (f0 :: p.1), p.2)

/-- The amended per-tag rewriting function for claim C7: the tag is left
alone exactly when it starts with the registry string itself (no slash
required — hence also whenever the registry is empty) or with `library/`. -/
def amendedTagRewrite (registry img : Str) : Str :=
  if registry.isPrefixOf img || libraryLit.isPrefixOf img then img
  else registry ++ '/' :: img

/-- The loop of the amended `PrefixTags` behaviour, with `amendedTagRewrite`
as the per-tag function. -/
def amendedPrefixTagsLoop (registry : Str) : Str → List Str → List Str × List Str
  | _, [] => ([], [])
  | prev, f :: rest =>
    if prev = "-t".data ∨ prev = "--tag".data then
      let f2 := amendedTagRewrite registry f
      let p := amendedPrefixTagsLoop registry f2 rest
      (f2 :: p.1, f2 :: p.2)
    else
      let p := amendedPrefixTagsLoop registry f rest
      (f :: p.1, p.2)

/-- The amended claim C7 behaviour of `PrefixTags`. -/
def amendedPrefixTags (cmd registry : Str) : Str × List Str :=
  match stringsFields cmd with
  | [] => ([], [])
  | f0 :: rest =>
    let p := amendedPrefixTagsLoop registry f0 rest
    (List.intercalate [' '] (f0 :: p.1), p.2)

/-! ### Helper lemmas about `PrefixRegistryToImageName` -/

/-- A list is a `isPrefixOf` any extension of itself. -/
lemma isPrefixOf_append_self (r s : Str) : r.isPrefixOf (r ++ s) = true := by
  rw [List.isPrefixOf_iff_prefix]
  exact List.prefix_append r s

/-- Shortening a `isPrefixOf` witness from the right. -/
lemma isPrefixOf_of_append_isPrefixOf {r t img : Str}
    (h : (r ++ t).isPrefixOf img = true) : r.isPrefixOf img = true := by
  rw [List.isPrefixOf_iff_prefix] at h ⊢
  exact List.IsPrefix.trans (List.prefix_append r t) h

/-- `PrefixRegistryToImageName` never rewrites an image that already starts
with the registry string. -/
lemma PrefixRegistryToImageName_of_isPrefixOf {registry img : Str}
    (h : registry.isPrefixOf img = true) :
    PrefixRegistryToImageName registry img = img := by
  unfold PrefixRegistryToImageName
  by_cases hr : registry = []
  · simp [hr]
  · simp [hr, h]

/-- The code's rewriting function agrees everywhere with the amended
per-tag function. -/
lemma PrefixRegistryToImageName_eq_amended (registry img : Str) :
    PrefixRegistryToImageName registry img = amendedTagRewrite registry img := by
  unfold PrefixRegistryToImageName amendedTagRewrite
  by_cases hr : registry = []
  · subst hr
    simp [List.isPrefixOf]
  · simp only [hr, if_false]
    by_cases h1 : registry.isPrefixOf img <;>
      by_cases h2 : libraryLit.isPrefixOf img <;> simp [h1, h2]

/-- The two loops agree once the per-tag functions agree. -/
lemma prefixTagsLoop_eq_amended (registry : Str) :
    ∀ (prev : Str) (fs : List Str),
      prefixTagsLoop registry prev fs = amendedPrefixTagsLoop registry prev fs := by
  intro prev fs
  induction fs generalizing prev with
  | nil => rfl
  | cons f rest ih =>
    unfold prefixTagsLoop amendedPrefixTagsLoop
    by_cases hp : prev = "-t".data ∨ prev = "--tag".data
    · simp only [hp, if_true, PrefixRegistryToImageName_eq_amended, ih]
    · simp only [hp, if_false, ih]

/-- Claim C8 — confirmed.  `PrefixRegistryToImageName` is idempotent, and it
returns the image unchanged when the image starts with `<registry>/` or with
`library/`. -/
theorem prefixRegistry_idempotent_and_noop (registry img : Str) :
    PrefixRegistryToImageName registry (PrefixRegistryToImageName registry img) =
      PrefixRegistryToImageName registry img ∧
    ((registry ++ ['/']).isPrefixOf img = true ∨ libraryLit.isPrefixOf img = true →
      PrefixRegistryToImageName registry img = img) := by
  constructor
  · by_cases hr : registry = []
    · simp [PrefixRegistryToImageName, hr]
    · by_cases h1 : registry.isPrefixOf img
      · rw [PrefixRegistryToImageName_of_isPrefixOf h1,
            PrefixRegistryToImageName_of_isPrefixOf h1]
      · by_cases h2 : libraryLit.isPrefixOf img
        · have hfix : PrefixRegistryToImageName registry img = img := by
            unfold PrefixRegistryToImageName
            simp [hr, h2]
          rw [hfix, hfix]
        · have hfix : PrefixRegistryToImageName registry img =
              registry ++ '/' :: img := by
            unfold PrefixRegistryToImageName
            simp [hr, h1, h2]
          rw [hfix]
          exact PrefixRegistryToImageName_of_isPrefixOf
            (isPrefixOf_append_self registry ('/' :: img))
  · rintro (h | h)
    · exact PrefixRegistryToImageName_of_isPrefixOf (isPrefixOf_of_append_isPrefixOf h)
    · unfold PrefixRegistryToImageName
      by_cases hr : registry = [] <;> simp [hr, h]

/-- Witness for C8: the no-op clause discharged on the concrete registry
`reg` and image `reg/app`. -/
theorem prefixRegistry_idempotent_and_noop_witness :
    PrefixRegistryToImageName "reg".data "reg/app".data = "reg/app".data :=
  (prefixRegistry_idempotent_and_noop "reg".data "reg/app".data).2
    (Or.inl (by decide))

/-- Claim C10 — confirmed.  `PrefixRegistryToImageName` leaves the image
unchanged whenever the image has the registry as a plain string prefix, with
no `/` separator required; in particular, with registry `reg` the image
`registry.io/app` is left unprefixed. -/
theorem prefixRegistry_plain_string_match :
    (∀ registry img : Str, registry.isPrefixOf img = true →
        PrefixRegistryToImageName registry img = img) ∧
    PrefixRegistryToImageName "reg".data "registry.io/app".data =
      "registry.io/app".data := by
  constructor
  · intro registry img h
    exact PrefixRegistryToImageName_of_isPrefixOf h
  · exact PrefixRegistryToImageName_of_isPrefixOf (by decide)

/-- Witness for C10: the general clause applied at the concrete registry
`reg` and image `registry.io/app`. -/
theorem prefixRegistry_plain_string_match_witness :
    PrefixRegistryToImageName "reg".data "registry.io/app".data =
      "registry.io/app".data :=
  prefixRegistry_plain_string_match.1 "reg".data "registry.io/app".data
    (by decide)

/-- Counterexample to claim C7 as stated: with registry `reg` and build
command `docker build -t registry.io/app .`, the code leaves the tag
`registry.io/app` unchanged (it starts with the string `reg`), whereas the
claimed behaviour — prefix unless the tag starts with `<registry>/` or
`library/` — would rewrite it to `reg/registry.io/app`. -/
theorem prefixTags_claim_counterexample :
    PrefixTags "docker build -t registry.io/app .".data "reg".data ≠
      claimPrefixTags "docker build -t registry.io/app .".data "reg".data := by
  decide

/-- Claim C7 — corrected.  `PrefixTags` replaces each whitespace-separated
field that immediately follows a `-t` or `--tag` field (as the field array
is being rewritten, left to right) with the registry-prefixed image name,
unless that tag already starts with the registry string itself (no slash
required) or with `library/`, and returns the resulting tags in order of
appearance. -/
theorem prefixTags_amended (cmd registry : Str) :
    PrefixTags cmd registry = amendedPrefixTags cmd registry := by
  unfold PrefixTags amendedPrefixTags
  cases stringsFields cmd with
  | nil => rfl
  | cons f0 rest => simp [prefixTagsLoop_eq_amended]

/-! ## The `processVertex` worker body (src/builder/builder.go, lines 225-254) -/

/-- Embedding of `graph.StepStatus`. -/
inductive StepStatus where
  | Skipped
  | InProgress
  | Successful
  | Failed
deriving DecidableEq

/-- Names of DAG nodes (step IDs). -/
abbrev NodeId : Type := Str

/-- An observable effect of one `processVertex` invocation: a send on the
error channel, a write to the step's status, the spawning of a worker
goroutine for a child node, or a send on the step's completion channel. -/
inductive PVEffect where
  | sendError (e : GoError)
  | setStatus (s : StepStatus)
  | spawnChild (c : NodeId)
  | sendCompleted
deriving DecidableEq

/-- Embedding of `Builder.processVertex` as the ordered list of effects it
performs.  `removeEdgeErr` is the result of `task.Dag.RemoveEdge`, `degree`
is `child.GetDegree()` after the removal, `runStepErr` is the result of
`b.runStep` (consulted only when the degree reached zero), `ignoreErrors`
is `step.IgnoreErrors` and `children` is `child.Children()`.  On a failed
edge removal the worker posts the wrapped error and returns; on degree zero
it runs the step, sets the terminal status, spawns children on success or
on an ignored failure (posting the wrapped step error otherwise), and
always sends the completion signal last; on positive degree it does
nothing. -/
def processVertexEffects (removeEdgeErr : Option GoError) (degree : Nat)
    (stepID : Str) (runStepErr : Option GoError) (ignoreErrors : Bool)
    (children : List NodeId) : List PVEffect :=
  match removeEdgeErr with
  | some e => [.sendError (wrapErr "failed to remove edge".data e)]
  | none =>
    if degree = 0 then
      (match runStepErr with
       | some e =>
         if ignoreErrors then
           .setStatus .Successful :: children.map .spawnChild
         else
           [.setStatus .Failed,
            .sendError (wrapErr ("failed to run step ID: ".data ++ stepID) e)]
       | none => .setStatus .Successful :: children.map .spawnChild)
      ++ [.sendCompleted]
    else []

/-- A list of spawn effects contains no completion send. -/
lemma count_sendCompleted_map_spawnChild (children : List NodeId) :
    (children.map PVEffect.spawnChild).count PVEffect.sendCompleted = 0 :=
  List.count_eq_zero.mpr (by simp)

/-- Claim C2 — confirmed.  One `processVertex` invocation sends the
completion signal exactly once when the edge removal succeeded and the
step's degree reached zero — in particular also when the step's execution
failed, and when its failure was ignored via `IgnoreErrors` — and never
otherwise. -/
theorem completion_signal_exactly_once (removeEdgeErr : Option GoError)
    (degree : Nat) (stepID : Str) (runStepErr : Option GoError)
    (ignoreErrors : Bool) (children : List NodeId) :
    (processVertexEffects removeEdgeErr degree stepID runStepErr ignoreErrors
        children).count PVEffect.sendCompleted =
      if removeEdgeErr = none ∧ degree = 0 then 1 else 0 := by
  cases removeEdgeErr with
  | some e => simp [processVertexEffects]
  | none =>
    by_cases hd : degree = 0
    · cases runStepErr with
      | some e =>
        cases ignoreErrors <;>
          simp [processVertexEffects, hd, List.count_append, List.count_cons,
            count_sendCompleted_map_spawnChild]
      | none =>
        simp [processVertexEffects, hd, List.count_append, List.count_cons,
          count_sendCompleted_map_spawnChild]
    · simp [processVertexEffects, hd]

/-- Claim C3 — confirmed.  When the step's execution returns an error and
`IgnoreErrors` is set, the worker sets the status to `Successful`, spawns a
worker for each child, and posts nothing to the error channel. -/
theorem ignored_failure_spawns_children (stepID : Str) (e : GoError)
    (children : List NodeId) :
    PVEffect.setStatus StepStatus.Successful ∈
      processVertexEffects none 0 stepID (some e) true children ∧
    (∀ c ∈ children, PVEffect.spawnChild c ∈
      processVertexEffects none 0 stepID (some e) true children) ∧
    (∀ e2 : GoError, PVEffect.sendError e2 ∉
      processVertexEffects none 0 stepID (some e) true children) := by
  refine ⟨?_, ?_, ?_⟩
  · simp [processVertexEffects]
  · intro c hc
    show PVEffect.spawnChild c ∈
      (PVEffect.setStatus StepStatus.Successful ::
        children.map PVEffect.spawnChild) ++ [PVEffect.sendCompleted]
    exact List.mem_append_left _
      (List.mem_cons_of_mem _ (List.mem_map_of_mem _ hc))
  · intro e2 h
    simp [processVertexEffects] at h

/-- Witness for C3: on a concrete ignored failure, the single child `c1` is
spawned. -/
theorem ignored_failure_spawns_children_witness :
    PVEffect.spawnChild "c1".data ∈
      processVertexEffects none 0 "a".data (some "boom".data) true
        ["c1".data] :=
  (ignored_failure_spawns_children "a".data "boom".data ["c1".data]).2.1
    "c1".data (by decide)

/-- Counterexample to claim C4 as stated: on a successful step with one
child, the effect trace is `[setStatus Successful, spawnChild c,
sendCompleted]` — the child worker is spawned at index 1, before the
completion signal at index 2, whereas the claim requires the completion
signal to be pushed first. -/
theorem completion_before_spawn_counterexample :
    ¬ (∀ i j : Nat,
        (processVertexEffects none 0 "a".data none true ["c".data]).get? i =
          some PVEffect.sendCompleted →
        (processVertexEffects none 0 "a".data none true ["c".data]).get? j =
          some (PVEffect.spawnChild "c".data) →
        i < j) :=
  fun h => absurd (h 2 1 rfl rfl) (by decide)

/-- Claim C4 — corrected.  In the worker body for a node whose degree has
reached zero, after the terminal status is set the worker first spawns a
worker for each child (when the step succeeded or failed with
`IgnoreErrors`), and only afterwards pushes `true` to the node's completion
signal, which is the last effect. -/
theorem spawn_then_completion_amended (stepID : Str)
    (runStepErr : Option GoError) (ignoreErrors : Bool)
    (children : List NodeId) (h : runStepErr = none ∨ ignoreErrors = true) :
    processVertexEffects none 0 stepID runStepErr ignoreErrors children =
      PVEffect.setStatus StepStatus.Successful ::
        (children.map PVEffect.spawnChild ++ [PVEffect.sendCompleted]) := by
  rcases h with h | h
  · subst h
    simp [processVertexEffects]
  · subst h
    cases runStepErr <;> simp [processVertexEffects]

/-- Witness for C4's amended theorem: a concrete successful step with one
child. -/
theorem spawn_then_completion_amended_witness :
    processVertexEffects none 0 "a".data none false ["c".data] =
      PVEffect.setStatus StepStatus.Successful ::
        (["c".data].map PVEffect.spawnChild ++ [PVEffect.sendCompleted]) :=
  spawn_then_completion_amended "a".data none false ["c".data] (Or.inl rfl)

/-! ## The `RunTask` completion barrier (src/builder/builder.go, lines 85-162)

`RunTask` collects every node's `CompletedChan`, creates an unbuffered
`errorChan`, spawns a worker per root child, and then, once per completion
channel (in slice order), selects across `ctx.Done()`, that channel, and
`errorChan`.  The model below runs this loop against the channel operations
performed by the workers (the `processVertexEffects` traces restricted to
channel sends), driven by an explicit interleaving schedule.  Completion
channels are single-capacity one-shot channels (`graph.Node`'s
`CompletedChan` from the `graph` package, which is not under `src/`;
capacity one follows the spec's "single-capacity channel or one-shot
notifier per node"), so a completion send never blocks; the error channel
is unbuffered (`make(chan error)` at line 86), so an error send is a
rendezvous with the barrier and blocks the worker until received. -/

/-- A channel operation performed by a worker: a (blocking) send on the
shared error channel, or a (buffered) send on the step's completion
channel. -/
inductive ChanEvent where
  | errSend (e : GoError)
  | compSend
deriving DecidableEq

/-- The channel operation performed by a `processVertex` effect, if any. -/
def effectChan : PVEffect → Option ChanEvent
  | .sendError e => some (.errSend e)
  | .sendCompleted => some .compSend
  | _ => none

/-- The channel operations of an effect trace, in order. -/
def chanEvents (t : List PVEffect) : List ChanEvent := t.filterMap effectChan

/-- State of the barrier system for `n` steps: `bidx` is the index of the
completion channel the `RunTask` loop currently waits on, `pos j` is worker
`j`'s position in its channel-operation trace, and `buf j` records whether
worker `j`'s completion channel holds an (unreceived) value. -/
structure BarrierState (n : Nat) where
  bidx : Nat
  pos : Fin n → Nat
  buf : Fin n → Bool

/-- One scheduling decision: worker `j` deposits its completion value into
its channel's buffer, the barrier receives from the channel it waits on,
the barrier receives a (rendezvous) error send from worker `j`, or the
global context becomes done and the barrier selects `ctx.Done()`. -/
inductive BarrierAction (n : Nat) where
  | stepComp (j : Fin n)
  | recvComp
  | recvErr (j : Fin n)
  | ctxDone
deriving DecidableEq

/-- What the barrier section of `RunTask` returns: `ctx.Err()` after the
context is done, the first error received from the error channel, or nil —
reaching the code after the loop — once all `n` completion channels have
delivered. -/
inductive RunOutcome where
  | ctxErr
  | errRet (e : GoError)
  | nilRet
deriving DecidableEq

/-- Small-step interpreter of the barrier against a schedule.  An action
that is not enabled in the current state (a worker send past the end of its
trace, a completion receive from an empty buffer, a second send into an
occupied one-shot buffer) invalidates the schedule (`none`).  When `bidx`
has passed every channel the loop is over and the barrier section returns
nil. -/
def runBarrier (n : Nat) (tr : Fin n → List ChanEvent) :
    List (BarrierAction n) → BarrierState n → Option RunOutcome
  | [], s => if s.bidx < n then none else some .nilRet
  | a :: rest, s =>
    if h : s.bidx < n then
      match a with
      | .ctxDone => some .ctxErr
      | .recvErr j =>
        match (tr j).get? (s.pos j) with
        | some (.errSend e) => some (.errRet e)
        | _ => none
      | .stepComp j =>
        match (tr j).get? (s.pos j) with
        | some .compSend =>
          if s.buf j then none
          else
            runBarrier n tr rest
              ⟨s.bidx, Function.update s.pos j (s.pos j + 1),
               Function.update s.buf j true⟩
        | _ => none
      | .recvComp =>
        if s.buf ⟨s.bidx, h⟩ then
          runBarrier n tr rest ⟨s.bidx + 1, s.pos, s.buf⟩
        else none
    else some .nilRet

/-- The initial barrier state: the loop waits on channel 0, no worker has
performed any channel operation, all buffers are empty. -/
def initBarrier (n : Nat) : BarrierState n := ⟨0, fun _ => 0, fun _ => false⟩

/-- Invariant of reachable barrier states: a worker's consumed trace
products are all completion sends (an error send terminates the run at the
moment it is received, so it is never stepped past), an occupied buffer
means its worker advanced at least once, and every channel the loop has
passed had delivered its value. -/
def BarrierInv (n : Nat) (tr : Fin n → List ChanEvent)
    (s : BarrierState n) : Prop :=
  (∀ j : Fin n, ∀ m < s.pos j, (tr j).get? m = some ChanEvent.compSend) ∧
  (∀ j : Fin n, s.buf j = true → 1 ≤ s.pos j) ∧
  (∀ j : Fin n, j.val < s.bidx → s.buf j = true)

/-- The initial state satisfies the invariant. -/
lemma BarrierInv_init (n : Nat) (tr : Fin n → List ChanEvent) :
    BarrierInv n tr (initBarrier n) := by
  refine ⟨?_, ?_, ?_⟩ <;> intro j
  · intro m hm
    exact absurd hm (Nat.not_lt_zero m)
  · intro hb
    exact absurd hb (by simp [initBarrier])
  · intro hlt
    exact absurd hlt (Nat.not_lt_zero _)

/-- A worker's buffered completion send preserves the invariant. -/
lemma BarrierInv_stepComp {n : Nat} {tr : Fin n → List ChanEvent}
    {s : BarrierState n} {j : Fin n} (hinv : BarrierInv n tr s)
    (hget : (tr j).get? (s.pos j) = some ChanEvent.compSend) :
    BarrierInv n tr
      ⟨s.bidx, Function.update s.pos j (s.pos j + 1),
       Function.update s.buf j true⟩ := by
  obtain ⟨h1, h2, h3⟩ := hinv
  refine ⟨?_, ?_, ?_⟩ <;> intro j' <;> dsimp only
  · intro m hm
    by_cases hj : j' = j
    · subst hj
      rw [Function.update_same] at hm
      rcases Nat.lt_succ_iff_lt_or_eq.mp hm with hm' | hm'
      · exact h1 j' m hm'
      · rw [hm']
        exact hget
    · rw [Function.update_noteq hj] at hm
      exact h1 j' m hm
  · intro hb
    by_cases hj : j' = j
    · subst hj
      rw [Function.update_same]
      exact Nat.le_add_left 1 (s.pos j')
    · rw [Function.update_noteq hj] at hb
      rw [Function.update_noteq hj]
      exact h2 j' hb
  · intro hlt
    by_cases hj : j' = j
    · subst hj
      rw [Function.update_same]
    · rw [Function.update_noteq hj]
      exact h3 j' hlt

/-- The barrier receiving a completion value preserves the invariant. -/
lemma BarrierInv_recvComp {n : Nat} {tr : Fin n → List ChanEvent}
    {s : BarrierState n} (hinv : BarrierInv n tr s) (h : s.bidx < n)
    (hbuf : s.buf ⟨s.bidx, h⟩ = true) :
    BarrierInv n tr ⟨s.bidx + 1, s.pos, s.buf⟩ := by
  obtain ⟨h1, h2, h3⟩ := hinv
  refine ⟨h1, h2, ?_⟩
  intro j' hlt
  rcases Nat.lt_succ_iff_lt_or_eq.mp hlt with hlt' | heq
  · exact h3 j' hlt'
  · have hj : j' = ⟨s.bidx, h⟩ := Fin.ext heq
    rw [hj]
    exact hbuf

/-- Step equation: the barrier selecting `ctx.Done()` returns the context's
error. -/
lemma runBarrier_ctxDone {n : Nat} {tr : Fin n → List ChanEvent}
    {rest : List (BarrierAction n)} {s : BarrierState n} (h : s.bidx < n) :
    runBarrier n tr (BarrierAction.ctxDone :: rest) s =
      some RunOutcome.ctxErr := by
  rw [runBarrier, dif_pos h]

/-- Step equation: the barrier receiving a rendezvous error send. -/
lemma runBarrier_recvErr {n : Nat} {tr : Fin n → List ChanEvent}
    {rest : List (BarrierAction n)} {s : BarrierState n} (j : Fin n)
    (h : s.bidx < n) :
    runBarrier n tr (BarrierAction.recvErr j :: rest) s =
      match (tr j).get? (s.pos j) with
      | some (ChanEvent.errSend e) => some (RunOutcome.errRet e)
      | _ => none := by
  rw [runBarrier, dif_pos h]

/-- Step equation: a worker depositing its completion value. -/
lemma runBarrier_stepComp {n : Nat} {tr : Fin n → List ChanEvent}
    {rest : List (BarrierAction n)} {s : BarrierState n} (j : Fin n)
    (h : s.bidx < n) :
    runBarrier n tr (BarrierAction.stepComp j :: rest) s =
      match (tr j).get? (s.pos j) with
      | some ChanEvent.compSend =>
        if s.buf j then none
        else
          runBarrier n tr rest
            ⟨s.bidx, Function.update s.pos j (s.pos j + 1),
             Function.update s.buf j true⟩
      | _ => none := by
  rw [runBarrier, dif_pos h]

/-- Step equation: the barrier receiving from the completion channel it
currently waits on. -/
lemma runBarrier_recvComp {n : Nat} {tr : Fin n → List ChanEvent}
    {rest : List (BarrierAction n)} {s : BarrierState n} (h : s.bidx < n) :
    runBarrier n tr (BarrierAction.recvComp :: rest) s =
      if s.buf ⟨s.bidx, h⟩ then
        runBarrier n tr rest ⟨s.bidx + 1, s.pos, s.buf⟩
      else none := by
  rw [runBarrier, dif_pos h]

/-- Step equation: once `bidx` has passed every channel, the barrier
section returns nil whatever the remaining schedule. -/
lemma runBarrier_stop {n : Nat} {tr : Fin n → List ChanEvent}
    {s : BarrierState n} (h : ¬ s.bidx < n) :
    ∀ sched : List (BarrierAction n),
      runBarrier n tr sched s = some RunOutcome.nilRet := by
  intro sched
  cases sched with
  | nil => rw [runBarrier, if_neg h]
  | cons a rest => rw [runBarrier, dif_neg h]

/-- A run of the barrier that returns nil consumed, for every worker, a
completion send as that worker's first channel operation. -/
lemma runBarrier_nilRet_first_compSend {n : Nat}
    (tr : Fin n → List ChanEvent) :
    ∀ (sched : List (BarrierAction n)) (s : BarrierState n),
      BarrierInv n tr s →
      runBarrier n tr sched s = some RunOutcome.nilRet →
      ∀ j : Fin n, (tr j).get? 0 = some ChanEvent.compSend := by
  intro sched
  induction sched with
  | nil =>
    intro s hinv hrun j
    by_cases h : s.bidx < n
    · rw [runBarrier, if_pos h] at hrun
      simp at hrun
    · have hb := hinv.2.2 j (lt_of_lt_of_le j.isLt (Nat.le_of_not_lt h))
      exact hinv.1 j 0 (hinv.2.1 j hb)
  | cons a rest ih =>
    intro s hinv hrun j
    by_cases h : s.bidx < n
    · cases a with
      | ctxDone =>
        rw [runBarrier_ctxDone h] at hrun
        simp at hrun
      | recvErr j' =>
        rw [runBarrier_recvErr j' h] at hrun
        cases hget : (tr j').get? (s.pos j') with
        | none => rw [hget] at hrun; simp at hrun
        | some ev =>
          cases ev with
          | errSend e => rw [hget] at hrun; simp at hrun
          | compSend => rw [hget] at hrun; simp at hrun
      | stepComp j' =>
        rw [runBarrier_stepComp j' h] at hrun
        cases hget : (tr j').get? (s.pos j') with
        | none => rw [hget] at hrun; simp at hrun
        | some ev =>
          cases ev with
          | errSend e => rw [hget] at hrun; simp at hrun
          | compSend =>
            rw [hget] at hrun
            by_cases hbuf : s.buf j'
            · rw [if_pos hbuf] at hrun
              simp at hrun
            · rw [if_neg hbuf] at hrun
              exact ih _ (BarrierInv_stepComp hinv hget) hrun j
      | recvComp =>
        rw [runBarrier_recvComp h] at hrun
        by_cases hbuf : s.buf ⟨s.bidx, h⟩
        · rw [if_pos hbuf] at hrun
          exact ih _ (BarrierInv_recvComp hinv h hbuf) hrun j
        · rw [if_neg hbuf] at hrun
          simp at hrun
    · have hb := hinv.2.2 j (lt_of_lt_of_le j.isLt (Nat.le_of_not_lt h))
      exact hinv.1 j 0 (hinv.2.1 j hb)

/-- A run of the barrier that returns nil received at least `n` completion
values, i.e. the schedule contains at least `n - bidx` barrier receives. -/
lemma runBarrier_nilRet_count {n : Nat} (tr : Fin n → List ChanEvent) :
    ∀ (sched : List (BarrierAction n)) (s : BarrierState n),
      runBarrier n tr sched s = some RunOutcome.nilRet →
      n ≤ s.bidx + sched.count BarrierAction.recvComp := by
  intro sched
  induction sched with
  | nil =>
    intro s hrun
    by_cases h : s.bidx < n
    · rw [runBarrier, if_pos h] at hrun
      simp at hrun
    · simpa using Nat.le_of_not_lt h
  | cons a rest ih =>
    intro s hrun
    by_cases h : s.bidx < n
    · cases a with
      | ctxDone =>
        rw [runBarrier_ctxDone h] at hrun
        simp at hrun
      | recvErr j' =>
        rw [runBarrier_recvErr j' h] at hrun
        cases hget : (tr j').get? (s.pos j') with
        | none => rw [hget] at hrun; simp at hrun
        | some ev =>
          cases ev with
          | errSend e => rw [hget] at hrun; simp at hrun
          | compSend => rw [hget] at hrun; simp at hrun
      | stepComp j' =>
        rw [runBarrier_stepComp j' h] at hrun
        cases hget : (tr j').get? (s.pos j') with
        | none => rw [hget] at hrun; simp at hrun
        | some ev =>
          cases ev with
          | errSend e => rw [hget] at hrun; simp at hrun
          | compSend =>
            rw [hget] at hrun
            by_cases hbuf : s.buf j'
            · rw [if_pos hbuf] at hrun
              simp at hrun
            · rw [if_neg hbuf] at hrun
              have hc := ih _ hrun
              simp only [List.count_cons] at hc ⊢
              simpa using hc
      | recvComp =>
        rw [runBarrier_recvComp h] at hrun
        by_cases hbuf : s.buf ⟨s.bidx, h⟩
        · rw [if_pos hbuf] at hrun
          have hc := ih _ hrun
          simp only [List.count_cons, beq_self_eq_true, if_true] at hc ⊢
          omega
        · rw [if_neg hbuf] at hrun
          simp at hrun
    · exact le_trans (Nat.le_of_not_lt h) (Nat.le_add_right _ _)

/-- The channel operations a worker performs on a degree-zero node: a lone
completion send when the step succeeded or its failure was ignored, and the
wrapped step error followed by the completion send otherwise. -/
lemma chanEvents_processVertex (stepID : Str) (runStepErr : Option GoError)
    (ignoreErrors : Bool) (children : List NodeId) :
    chanEvents
        (processVertexEffects none 0 stepID runStepErr ignoreErrors
          children) =
      match runStepErr, ignoreErrors with
      | some e, false =>
        [ChanEvent.errSend
            (wrapErr ("failed to run step ID: ".data ++ stepID) e),
         ChanEvent.compSend]
      | _, _ => [ChanEvent.compSend] := by
  have hspawn : ∀ children : List NodeId,
      (children.map PVEffect.spawnChild).filterMap effectChan = [] := by
    intro cs
    induction cs with
    | nil => rfl
    | cons c rest ihc => simp [effectChan, ihc]
  cases runStepErr with
  | none =>
    simp [chanEvents, processVertexEffects, List.filterMap_append, effectChan,
      hspawn]
  | some e =>
    cases ignoreErrors with
    | false => simp [chanEvents, processVertexEffects, effectChan]
    | true =>
      simp [chanEvents, processVertexEffects, List.filterMap_append,
        effectChan, hspawn]

/-- Claim C1 — confirmed.  The completion barrier of `RunTask`, run against
the channel operations of the `processVertex` workers: (1) when the global
context is done the barrier returns the context's error; (2) the first
error received from the error channel is returned immediately, without
waiting for the remaining steps; (3) nil is returned only after every one
of the `n` completion signals has been received; and (4) a nil return
implies that every step either succeeded or failed with `IgnoreErrors`
set. -/
theorem runTask_completion_barrier (n : Nat) (stepIDs : Fin n → Str)
    (runStepErrs : Fin n → Option GoError) (igs : Fin n → Bool)
    (childs : Fin n → List NodeId) (tr : Fin n → List ChanEvent)
    (htr : ∀ j : Fin n, tr j = chanEvents
      (processVertexEffects none 0 (stepIDs j) (runStepErrs j) (igs j)
        (childs j))) :
    (∀ (sched : List (BarrierAction n)) (s : BarrierState n), s.bidx < n →
      runBarrier n tr (BarrierAction.ctxDone :: sched) s =
        some RunOutcome.ctxErr) ∧
    (∀ (sched : List (BarrierAction n)) (s : BarrierState n) (j : Fin n)
        (e : GoError), s.bidx < n →
      (tr j).get? (s.pos j) = some (ChanEvent.errSend e) →
      runBarrier n tr (BarrierAction.recvErr j :: sched) s =
        some (RunOutcome.errRet e)) ∧
    (∀ sched : List (BarrierAction n),
      runBarrier n tr sched (initBarrier n) = some RunOutcome.nilRet →
      n ≤ sched.count BarrierAction.recvComp) ∧
    (∀ sched : List (BarrierAction n),
      runBarrier n tr sched (initBarrier n) = some RunOutcome.nilRet →
      ∀ j : Fin n, runStepErrs j = none ∨ igs j = true) := by
  refine ⟨?_, ?_, ?_, ?_⟩
  · intro sched s h
    exact runBarrier_ctxDone h
  · intro sched s j e h hget
    rw [runBarrier_recvErr j h, hget]
  · intro sched hrun
    have hc := runBarrier_nilRet_count tr sched (initBarrier n) hrun
    simpa [initBarrier] using hc
  · intro sched hrun j
    have hcomp := runBarrier_nilRet_first_compSend tr sched (initBarrier n)
      (BarrierInv_init n tr) hrun j
    rw [htr j, chanEvents_processVertex] at hcomp
    cases herr : runStepErrs j with
    | none => exact Or.inl rfl
    | some e =>
      cases hig : igs j with
      | true => exact Or.inr rfl
      | false =>
        rw [herr, hig] at hcomp
        simp at hcomp

/-- Witness for C1: concrete single-step instances.  With a failing,
non-ignored step, selecting `ctx.Done()` returns the context error and
selecting the error channel returns the wrapped step error; with a
successful step, the nil-returning schedule contains a completion receive,
and the step indeed succeeded. -/
theorem runTask_completion_barrier_witness :
    runBarrier 1
        (fun _ => chanEvents
          (processVertexEffects none 0 "a".data (some "boom".data) false []))
        [BarrierAction.ctxDone] (initBarrier 1) = some RunOutcome.ctxErr ∧
    runBarrier 1
        (fun _ => chanEvents
          (processVertexEffects none 0 "a".data (some "boom".data) false []))
        [BarrierAction.recvErr ⟨0, Nat.one_pos⟩] (initBarrier 1) =
      some (RunOutcome.errRet
        (wrapErr ("failed to run step ID: ".data ++ "a".data) "boom".data)) ∧
    1 ≤ ([BarrierAction.stepComp ⟨0, Nat.one_pos⟩,
          BarrierAction.recvComp] : List (BarrierAction 1)).count
          BarrierAction.recvComp ∧
    ((none : Option GoError) = none ∨ false = true) := by
  refine ⟨?_, ?_, ?_, ?_⟩
  · exact (runTask_completion_barrier 1 (fun _ => "a".data)
      (fun _ => some "boom".data) (fun _ => false) (fun _ => []) _
      (fun _ => rfl)).1 [] (initBarrier 1) (by decide)
  · exact (runTask_completion_barrier 1 (fun _ => "a".data)
      (fun _ => some "boom".data) (fun _ => false) (fun _ => []) _
      (fun _ => rfl)).2.1 [] (initBarrier 1) ⟨0, Nat.one_pos⟩ _ (by decide)
      (by decide)
  · exact (runTask_completion_barrier 1 (fun _ => "a".data)
      (fun _ => none) (fun _ => false) (fun _ => []) _
      (fun _ => rfl)).2.2.1
      [BarrierAction.stepComp ⟨0, Nat.one_pos⟩, BarrierAction.recvComp]
      (by decide)
  · exact (runTask_completion_barrier 1 (fun _ => "a".data)
      (fun _ => none) (fun _ => false) (fun _ => []) _
      (fun _ => rfl)).2.2.2
      [BarrierAction.stepComp ⟨0, Nat.one_pos⟩, BarrierAction.recvComp]
      (by decide) ⟨0, Nat.one_pos⟩

/-! ## Container-engine invocations of `runStep` (builder.go lines 256-355) -/

/-- Value of `runtime.GOOS` on Windows (`util.WindowsOS`). -/
def windowsOS : Str := "windows".data

/-- Value of `runtime.GOOS` on Linux (`util.LinuxOS`). -/
def linuxOS : Str := "linux".data

/-- The `WindowServerCore2019Image` constant of the `builder` package.  Its
literal value lives in a builder-package file not under `src/`; no claim
depends on the value, only on comparisons against it. -/
def WindowServerCore2019Image : Str :=
  "mcr.microsoft.com/windows/servercore:ltsc2019".data

/-- Embedding of `parseImageNameFromArgs`: everything before the first
space, or the whole string when it has no space. -/
def parseImageNameFromArgs (cmdArgs : Str) : Str :=
  cmdArgs.takeWhile (fun c => c ≠ ' ')

/-- The kind of a step.  In the Go `graph` package (not under `src/`) the
kind is determined by field presence — `IsBuildStep`, `IsPushStep`,
`IsCmdStep` — with exactly one of build/push/cmd set per the spec. -/
inductive StepKind where
  | build
  | push
  | cmd
deriving DecidableEq

/-- The fields of `graph.Step` that `runStep` consults.  `ContainsWS2019`
models the result of
`step.ContainsImageDependency(WindowServerCore2019Image)` (a `graph`
method not under `src/`). -/
structure Step where
  ID : Str
  kind : StepKind
  Cmd : Str
  Push : List Str
  Pull : Bool
  CmdDownloadRetries : Nat
  CmdDownloadRetryDelayInSeconds : Nat
  Retries : Nat
  RetryOnErrors : Option (List Str)
  RetryDelayInSeconds : Nat
  Repeat : Nat
  IgnoreErrors : Bool
  Isolation : Str
  ContainsWS2019 : Bool
deriving DecidableEq

/-- Which container-engine command an invocation runs; the exact argv
strings are built by `getDockerRunArgs*` helpers in builder-package files
not under `src/`, so each command is identified by its construction
site. -/
inductive EngineCall where
  | prePullImage (img : Str)
  | wsPreRun (containerName : Str)
  | stepContainer
  | pushImage (img : Str)
  | buildkitd
deriving DecidableEq

/-- A call into the process manager: which entry point, with which retry
parameters.  `patterns = none` models Go's `nil` pattern slice. -/
inductive PMInvocation where
  | run (call : EngineCall)
  | runWithRetries (call : EngineCall) (retries : Nat)
      (patterns : Option (List Str)) (delaySec : Nat) (id : Str)
  | runRepeatWithRetries (call : EngineCall) (retries : Nat)
      (patterns : Option (List Str)) (delaySec : Nat) (id : Str) (rep : Nat)
deriving DecidableEq

/-- Modelled from the spec: `pushWithRetries` (called at builder.go line
321; its body is in a builder-package file not under `src/`).  Per the
spec, push steps perform retried pushes and every engine invocation is
funneled through `RunRepeatWithRetries` with the step's retry policy, so
each pushed image yields one such invocation. -/
def pushWithRetries (step : Step) : List PMInvocation :=
  step.Push.map (fun img =>
    PMInvocation.runRepeatWithRetries (EngineCall.pushImage img) step.Retries
      step.RetryOnErrors step.RetryDelayInSeconds step.ID step.Repeat)

/-- The tail of `runStep` shared by build and cmd steps: the one-shot
Windows Server 2019 pre-run workaround (builder.go lines 337-341, gated by
the package-level `once` latch) followed by the step's main engine run via
`RunRepeatWithRetries` with the step's policy (lines 343-354).  Returns
the invocations together with the updated latch state. -/
def runStepTail (goos : Str) (onceUsed : Bool) (step : Step)
    (pre : List PMInvocation) : List PMInvocation × Bool :=
  if goos = windowsOS ∧
      (step.Isolation = [] ∨ step.Isolation = "hyperv".data) ∧
      (parseImageNameFromArgs step.Cmd = WindowServerCore2019Image ∨
        step.ContainsWS2019) ∧
      onceUsed = false then
    (pre ++
      [PMInvocation.run (EngineCall.wsPreRun (step.ID ++ "_prerun".data)),
       PMInvocation.runRepeatWithRetries EngineCall.stepContainer
         step.Retries step.RetryOnErrors step.RetryDelayInSeconds step.ID
         step.Repeat],
     true)
  else
    (pre ++
      [PMInvocation.runRepeatWithRetries EngineCall.stepContainer
         step.Retries step.RetryOnErrors step.RetryDelayInSeconds step.ID
         step.Repeat],
     onceUsed)

/-- The explicit pre-pull of `runStep` (builder.go lines 263-268): a cmd
step with `Pull` set first pulls the command's image via
`pullImageBeforeRun` (lines 393-408), which calls `RunWithRetries` with
the step's `CmdDownloadRetries`, a `nil` pattern list,
`CmdDownloadRetryDelayInSeconds` and an empty id. -/
def prePullInvocations (step : Step) : List PMInvocation :=
  if step.kind = StepKind.cmd ∧ step.Pull then
    [PMInvocation.runWithRetries
      (EngineCall.prePullImage (parseImageNameFromArgs step.Cmd))
      step.CmdDownloadRetries none step.CmdDownloadRetryDelayInSeconds []]
  else []

/-- Embedding of `Builder.runStep` as the process-manager invocations it
performs, threading the `once` latch.  `pullErr` is the result of the
explicit pre-pull (consulted only for cmd steps with `Pull`); `scrapeErr`
is the result of the dependency scrape (consulted only for build steps;
the scraper is a collaborator, not an engine invocation).  A push step
delegates to `pushWithRetries` (line 321); build and cmd steps end with
`runStepTail`. -/
def runStepInvocations (goos : Str) (onceUsed : Bool) (step : Step)
    (pullErr : Option GoError) (scrapeErr : Option GoError) :
    List PMInvocation × Bool :=
  if step.kind = StepKind.cmd ∧ step.Pull ∧ pullErr.isSome then
    (prePullInvocations step, onceUsed)
  else
    match step.kind with
    | StepKind.push =>
      (prePullInvocations step ++ pushWithRetries step, onceUsed)
    | StepKind.build =>
      if scrapeErr.isSome then (prePullInvocations step, onceUsed)
      else runStepTail goos onceUsed step (prePullInvocations step)
    | StepKind.cmd =>
      runStepTail goos onceUsed step (prePullInvocations step)

/-- What claim C5 requires of every invocation: `RunRepeatWithRetries`
with the step's `Retries`, `RetryOnErrors`, `RetryDelay` and `Repeat`. -/
def usesStepPolicy (step : Step) (inv : PMInvocation) : Prop :=
  ∃ (call : EngineCall) (id : Str),
    inv = PMInvocation.runRepeatWithRetries call step.Retries
      step.RetryOnErrors step.RetryDelayInSeconds id step.Repeat

/-- A concrete cmd step with `Pull` set, used to exhibit the pre-pull
invocation. -/
def exampleCmdStep : Step :=
  { ID := "s1".data
    kind := StepKind.cmd
    Cmd := "ubuntu echo hi".data
    Push := []
    Pull := true
    CmdDownloadRetries := 2
    CmdDownloadRetryDelayInSeconds := 5
    Retries := 3
    RetryOnErrors := some ["transient".data]
    RetryDelayInSeconds := 7
    Repeat := 1
    IgnoreErrors := false
    Isolation := []
    ContainsWS2019 := false }

/-- Counterexample to claim C5 as stated: executing a cmd step with `Pull`
set performs the explicit pre-pull through `RunWithRetries` — with the
step's `CmdDownloadRetries`, a `nil` pattern list and
`CmdDownloadRetryDelayInSeconds` — which is not a `RunRepeatWithRetries`
invocation with the step's retry policy. -/
theorem runStep_every_invocation_policy_counterexample :
    ¬ (∀ inv ∈ (runStepInvocations linuxOS false exampleCmdStep none
        none).1, usesStepPolicy exampleCmdStep inv) := by
  intro h
  have hmem : PMInvocation.runWithRetries
      (EngineCall.prePullImage (parseImageNameFromArgs exampleCmdStep.Cmd))
      exampleCmdStep.CmdDownloadRetries none
      exampleCmdStep.CmdDownloadRetryDelayInSeconds [] ∈
      (runStepInvocations linuxOS false exampleCmdStep none none).1 := by
    decide
  rcases h _ hmem with ⟨call, id, heq⟩
  exact PMInvocation.noConfusion heq

/-- Every pre-pull invocation is the `RunWithRetries` download call. -/
lemma prePullInvocations_mem {step : Step} :
    ∀ inv ∈ prePullInvocations step,
      inv = PMInvocation.runWithRetries
        (EngineCall.prePullImage (parseImageNameFromArgs step.Cmd))
        step.CmdDownloadRetries none step.CmdDownloadRetryDelayInSeconds
        [] := by
  intro inv hmem
  unfold prePullInvocations at hmem
  split at hmem
  · simpa using hmem
  · simp at hmem

/-- Every push invocation carries the step's retry policy. -/
lemma pushWithRetries_mem {step : Step} :
    ∀ inv ∈ pushWithRetries step, usesStepPolicy step inv := by
  intro inv hmem
  rcases List.mem_map.mp hmem with ⟨img, _, heq⟩
  exact ⟨EngineCall.pushImage img, step.ID, heq.symm⟩

/-- Every invocation of the shared tail is either carried over from `pre`,
the main step run with the step's policy, or the one-shot Windows
pre-run. -/
lemma runStepTail_mem {goos : Str} {onceUsed : Bool} {step : Step}
    {pre : List PMInvocation} :
    ∀ inv ∈ (runStepTail goos onceUsed step pre).1,
      inv ∈ pre ∨ usesStepPolicy step inv ∨
      inv = PMInvocation.run
        (EngineCall.wsPreRun (step.ID ++ "_prerun".data)) := by
  intro inv hmem
  unfold runStepTail at hmem
  split at hmem
  · rcases List.mem_append.mp hmem with h | h
    · exact Or.inl h
    · rcases List.mem_cons.mp h with h | h
      · exact Or.inr (Or.inr h)
      · refine Or.inr (Or.inl ⟨EngineCall.stepContainer, step.ID, ?_⟩)
        simpa using h
  · rcases List.mem_append.mp hmem with h | h
    · exact Or.inl h
    · refine Or.inr (Or.inl ⟨EngineCall.stepContainer, step.ID, ?_⟩)
      simpa using h

/-- Claim C5 — corrected.  Every container-engine invocation performed
while executing a step is either the step's main engine run (and, for push
steps, the per-image push) through `RunRepeatWithRetries` with the step's
`Retries`, `RetryOnErrors`, `RetryDelay` and `Repeat`; or the explicit
pre-pull of a cmd step with `Pull`, which instead uses `RunWithRetries`
with the step's `CmdDownloadRetries`, no patterns and
`CmdDownloadRetryDelayInSeconds`; or the one-shot Windows Server 2019
pre-run container, which uses a plain `Run`. -/
theorem runStep_invocations_policy_amended (goos : Str) (onceUsed : Bool)
    (step : Step) (pullErr scrapeErr : Option GoError) :
    ∀ inv ∈ (runStepInvocations goos onceUsed step pullErr scrapeErr).1,
      usesStepPolicy step inv ∨
      inv = PMInvocation.runWithRetries
        (EngineCall.prePullImage (parseImageNameFromArgs step.Cmd))
        step.CmdDownloadRetries none step.CmdDownloadRetryDelayInSeconds
        [] ∨
      inv = PMInvocation.run
        (EngineCall.wsPreRun (step.ID ++ "_prerun".data)) := by
  intro inv hmem
  unfold runStepInvocations at hmem
  split at hmem
  · exact Or.inr (Or.inl (prePullInvocations_mem inv hmem))
  · split at hmem
    · rcases List.mem_append.mp hmem with h | h
      · exact Or.inr (Or.inl (prePullInvocations_mem inv h))
      · exact Or.inl (pushWithRetries_mem inv h)
    · split at hmem
      · exact Or.inr (Or.inl (prePullInvocations_mem inv hmem))
      · rcases runStepTail_mem inv hmem with h | h | h
        · exact Or.inr (Or.inl (prePullInvocations_mem inv h))
        · exact Or.inl h
        · exact Or.inr (Or.inr h)
    · rcases runStepTail_mem inv hmem with h | h | h
      · exact Or.inr (Or.inl (prePullInvocations_mem inv h))
      · exact Or.inl h
      · exact Or.inr (Or.inr h)

/-- Witness for C5's amended theorem: the main invocation of the concrete
cmd step carries the step's policy. -/
theorem runStep_invocations_policy_amended_witness :
    usesStepPolicy exampleCmdStep
        (PMInvocation.runRepeatWithRetries EngineCall.stepContainer 3
          (some ["transient".data]) 7 "s1".data 1) ∨
      PMInvocation.runRepeatWithRetries EngineCall.stepContainer 3
          (some ["transient".data]) 7 "s1".data 1 =
        PMInvocation.runWithRetries
          (EngineCall.prePullImage
            (parseImageNameFromArgs exampleCmdStep.Cmd))
          exampleCmdStep.CmdDownloadRetries none
          exampleCmdStep.CmdDownloadRetryDelayInSeconds [] ∨
      PMInvocation.runRepeatWithRetries EngineCall.stepContainer 3
          (some ["transient".data]) 7 "s1".data 1 =
        PMInvocation.run
          (EngineCall.wsPreRun (exampleCmdStep.ID ++ "_prerun".data)) :=
  runStep_invocations_policy_amended linuxOS false exampleCmdStep none none
    (PMInvocation.runRepeatWithRetries EngineCall.stepContainer 3
      (some ["transient".data]) 7 "s1".data 1) (by decide)

/-! ## The pre-execution phase of `RunTask` (builder.go lines 51-198)

`RunTask` creates the networks, sets up the Docker configuration, logs in
to each credentialed registry, initializes the buildkitd container when
the task uses the build cache, prepares the volumes, spawns a worker per
root child, runs the completion barrier, and finally populates digests.
The model below records this pipeline as an error result paired with an
effect trace, with the outcome of each collaborator call supplied by an
oracle record.  The buildkitd initialization (lines 91-136) is run
directly — it is not gated by the package-level `once` latch, which line
339 uses for the Windows pre-run only — and its error is logged, not
returned (lines 133-135). -/

/-- The fields of `graph.Network` that `RunTask` consults. -/
structure NetworkModel where
  Name : Str
  SkipCreation : Bool
deriving DecidableEq

/-- The fields of `graph.Task` that the `RunTask` pipeline consults.
`RegistryNames` are the keys of `RegistryLoginCredentials` (map iteration
order abstracted as a list); `RootChildren` the names of
`task.Dag.Root.Children()`. -/
structure TaskModel where
  Networks : List NetworkModel
  RegistryNames : List Str
  InitBuildkitContainer : Bool
  Volumes : List Str
  RootChildren : List NodeId

/-- Observable effects of the `RunTask` pipeline. -/
inductive RunTaskEffect where
  | createNetwork (name : Str)
  | setupConfig
  | dockerLogin (registry : Str)
  | buildkitInit
  | logBuildkitInitError (e : GoError)
  | prepareVolume (name : Str)
  | spawnRootWorker (child : NodeId)
  | populateDigests
deriving DecidableEq

/-- Outcomes of the collaborator calls the `RunTask` pipeline makes, per
network/registry/volume name where the code loops. -/
structure RunTaskOracles where
  networkErr : Str → Option GoError
  configErr : Option GoError
  loginErr : Str → Option GoError
  buildkitErr : Option GoError
  volumeErr : Str → Option GoError
  barrierOutcome : RunOutcome
  digestErr : Option GoError

/-- The error `ctx.Err()` yields once the context is cancelled. -/
def ctxCanceled : GoError := "context canceled".data

/-- Sequencing of pipeline sections: a section that errored short-circuits
(its error and the effects so far are returned); otherwise the
continuation's result is returned with the traces appended. -/
def seqRT (p : Option GoError × List RunTaskEffect)
    (k : Unit → Option GoError × List RunTaskEffect) :
    Option GoError × List RunTaskEffect :=
  match p.1 with
  | some _ => p
  | none => ((k ()).1, p.2 ++ (k ()).2)

/-- The network-creation loop (lines 52-62): networks flagged
`SkipCreation` are skipped, a failed creation returns a wrapped error. -/
def networksSection (ne : Str → Option GoError) :
    List NetworkModel → Option GoError × List RunTaskEffect
  | [] => (none, [])
  | n :: rest =>
    if n.SkipCreation then networksSection ne rest
    else
      match ne n.Name with
      | some e =>
        (some (wrapErr ("failed to create network: ".data ++ n.Name) e),
         [RunTaskEffect.createNetwork n.Name])
      | none =>
        let p := networksSection ne rest
        (p.1, RunTaskEffect.createNetwork n.Name :: p.2)

/-- The Docker-configuration setup (lines 64-71): always performed, its
error returned. -/
def configSection (ce : Option GoError) :
    Option GoError × List RunTaskEffect :=
  match ce with
  | some e => (some e, [RunTaskEffect.setupConfig])
  | none => (none, [RunTaskEffect.setupConfig])

/-- The registry-login loop (lines 72-83): a failed login returns its
error. -/
def loginSection (le : Str → Option GoError) :
    List Str → Option GoError × List RunTaskEffect
  | [] => (none, [])
  | r :: rest =>
    match le r with
    | some e => (some e, [RunTaskEffect.dockerLogin r])
    | none =>
      let p := loginSection le rest
      (p.1, RunTaskEffect.dockerLogin r :: p.2)

/-- The buildkitd-container initialization (lines 91-136): performed
whenever the task uses the build cache; an initialization error is logged
and the pipeline continues — the section's error result is always nil. -/
def buildkitSection (initBuildkit : Bool) (be : Option GoError) :
    Option GoError × List RunTaskEffect :=
  if initBuildkit then
    match be with
    | some e =>
      (none, [RunTaskEffect.buildkitInit, RunTaskEffect.logBuildkitInitError e])
    | none => (none, [RunTaskEffect.buildkitInit])
  else (none, [])

/-- The volume-preparation loop (lines 138-143): a failed preparation
returns its error. -/
def volumesSection (ve : Str → Option GoError) :
    List Str → Option GoError × List RunTaskEffect
  | [] => (none, [])
  | v :: rest =>
    match ve v with
    | some e => (some e, [RunTaskEffect.prepareVolume v])
    | none =>
      let p := volumesSection ve rest
      (p.1, RunTaskEffect.prepareVolume v :: p.2)

/-- The completion barrier (lines 149-162) followed by digest population
(lines 164-197): the context error or the first step error is returned;
otherwise digests are populated and `RunTask` returns nil unless the
digest pass fails. -/
def barrierSection (bo : RunOutcome) (de : Option GoError) :
    Option GoError × List RunTaskEffect :=
  match bo with
  | RunOutcome.ctxErr => (some ctxCanceled, [])
  | RunOutcome.errRet e => (some e, [])
  | RunOutcome.nilRet =>
    match de with
    | some e => (some e, [RunTaskEffect.populateDigests])
    | none => (none, [RunTaskEffect.populateDigests])

/-- Embedding of `Builder.RunTask` as an error result paired with an
effect trace: networks, configuration, logins, buildkitd initialization,
volumes, the spawning of one worker per root child (lines 145-147), and
the barrier with the digest pass. -/
def runTaskModel (task : TaskModel) (o : RunTaskOracles) :
    Option GoError × List RunTaskEffect :=
  seqRT (networksSection o.networkErr task.Networks) (fun _ =>
    seqRT (configSection o.configErr) (fun _ =>
      seqRT (loginSection o.loginErr task.RegistryNames) (fun _ =>
        seqRT (buildkitSection task.InitBuildkitContainer o.buildkitErr)
          (fun _ =>
          seqRT (volumesSection o.volumeErr task.Volumes) (fun _ =>
            seqRT (none, task.RootChildren.map RunTaskEffect.spawnRootWorker)
              (fun _ => barrierSection o.barrierOutcome o.digestErr))))))

/-- Sequencing preserves the result when the continuations' results
agree. -/
lemma seqRT_fst_congr (p : Option GoError × List RunTaskEffect)
    (k1 k2 : Unit → Option GoError × List RunTaskEffect)
    (h : (k1 ()).1 = (k2 ()).1) : (seqRT p k1).1 = (seqRT p k2).1 := by
  unfold seqRT
  cases hp : p.1 <;> simp [h]

/-- Sequencing after a successful section appends the traces. -/
lemma seqRT_none {p : Option GoError × List RunTaskEffect}
    {k : Unit → Option GoError × List RunTaskEffect} (h : p.1 = none) :
    seqRT p k = ((k ()).1, p.2 ++ (k ()).2) := by
  unfold seqRT
  rw [h]

/-- The buildkitd section never reports an error. -/
lemma buildkitSection_fst (initBuildkit : Bool) (be : Option GoError) :
    (buildkitSection initBuildkit be).1 = none := by
  unfold buildkitSection
  cases initBuildkit <;> cases be <;> rfl

/-- With error-free network creation the network loop succeeds. -/
lemma networksSection_fst_clear (ne : Str → Option GoError)
    (h : ∀ s, ne s = none) :
    ∀ nets, (networksSection ne nets).1 = none := by
  intro nets
  induction nets with
  | nil => rfl
  | cons n rest ih =>
    unfold networksSection
    split
    · exact ih
    · rw [h n.Name]
      exact ih

/-- With error-free logins the login loop succeeds. -/
lemma loginSection_fst_clear (le : Str → Option GoError)
    (h : ∀ s, le s = none) :
    ∀ rs, (loginSection le rs).1 = none := by
  intro rs
  induction rs with
  | nil => rfl
  | cons r rest ih =>
    unfold loginSection
    rw [h r]
    exact ih

/-- With error-free volume preparation the volume loop prepares every
volume in order and succeeds. -/
lemma volumesSection_clear (ve : Str → Option GoError)
    (h : ∀ s, ve s = none) :
    ∀ vs, volumesSection ve vs =
      (none, vs.map RunTaskEffect.prepareVolume) := by
  intro vs
  induction vs with
  | nil => rfl
  | cons v rest ih =>
    unfold volumesSection
    rw [h v, ih]
    rfl

/-- Shape of the `RunTask` pipeline when every section before the barrier
succeeds: the barrier's result, with the sections' traces appended in
order. -/
lemma runTaskModel_eq (task : TaskModel) (o : RunTaskOracles)
    (h1 : (networksSection o.networkErr task.Networks).1 = none)
    (h2 : (configSection o.configErr).1 = none)
    (h3 : (loginSection o.loginErr task.RegistryNames).1 = none)
    (h5 : (volumesSection o.volumeErr task.Volumes).1 = none) :
    runTaskModel task o =
      ((barrierSection o.barrierOutcome o.digestErr).1,
       (networksSection o.networkErr task.Networks).2 ++
         ((configSection o.configErr).2 ++
           ((loginSection o.loginErr task.RegistryNames).2 ++
             ((buildkitSection task.InitBuildkitContainer o.buildkitErr).2 ++
               ((volumesSection o.volumeErr task.Volumes).2 ++
                 (task.RootChildren.map RunTaskEffect.spawnRootWorker ++
                   (barrierSection o.barrierOutcome o.digestErr).2)))))) := by
  unfold runTaskModel
  rw [seqRT_none h1, seqRT_none h2, seqRT_none h3,
    seqRT_none (buildkitSection_fst _ _), seqRT_none h5,
    seqRT_none (rfl : (none, task.RootChildren.map
      RunTaskEffect.spawnRootWorker).1 = none)]

/-- Claim C9 — confirmed.  When the buildkitd container initialization
fails, `RunTask` logs the error and continues: with every other
collaborator succeeding and a successful barrier, the error is logged, all
volumes are still prepared, a worker is still spawned for each root child,
and `RunTask` returns nil — the initialization error never propagates to
the return value. -/
theorem buildkit_init_error_only_logged (task : TaskModel)
    (o : RunTaskOracles) (e : GoError) (hbe : o.buildkitErr = some e)
    (hbk : task.InitBuildkitContainer = true)
    (hne : ∀ s, o.networkErr s = none) (hce : o.configErr = none)
    (hle : ∀ s, o.loginErr s = none) (hve : ∀ s, o.volumeErr s = none)
    (hbo : o.barrierOutcome = RunOutcome.nilRet)
    (hde : o.digestErr = none) :
    (runTaskModel task o).1 = none ∧
    RunTaskEffect.logBuildkitInitError e ∈ (runTaskModel task o).2 ∧
    (∀ v ∈ task.Volumes,
      RunTaskEffect.prepareVolume v ∈ (runTaskModel task o).2) ∧
    (∀ c ∈ task.RootChildren,
      RunTaskEffect.spawnRootWorker c ∈ (runTaskModel task o).2) := by
  have h1 := networksSection_fst_clear o.networkErr hne task.Networks
  have h2 : (configSection o.configErr).1 = none := by rw [hce]; rfl
  have h3 := loginSection_fst_clear o.loginErr hle task.RegistryNames
  have h5full := volumesSection_clear o.volumeErr hve task.Volumes
  have h5 : (volumesSection o.volumeErr task.Volumes).1 = none := by
    rw [h5full]
  have heq := runTaskModel_eq task o h1 h2 h3 h5
  have hbksec : buildkitSection task.InitBuildkitContainer o.buildkitErr =
      (none, [RunTaskEffect.buildkitInit,
              RunTaskEffect.logBuildkitInitError e]) := by
    rw [hbk, hbe]
    rfl
  have hbar : barrierSection o.barrierOutcome o.digestErr =
      (none, [RunTaskEffect.populateDigests]) := by
    rw [hbo, hde]
    rfl
  rw [heq, hbksec, hbar, h5full]
  refine ⟨rfl, ?_, ?_, ?_⟩
  · refine List.mem_append_right _ (List.mem_append_right _
      (List.mem_append_right _ (List.mem_append_left _ ?_)))
    exact List.mem_cons_of_mem _ (List.mem_cons_self _ _)
  · intro v hv
    refine List.mem_append_right _ (List.mem_append_right _
      (List.mem_append_right _ (List.mem_append_right _
        (List.mem_append_left _ ?_))))
    exact List.mem_map_of_mem _ hv
  · intro c hc
    refine List.mem_append_right _ (List.mem_append_right _
      (List.mem_append_right _ (List.mem_append_right _
        (List.mem_append_right _ (List.mem_append_left _ ?_)))))
    exact List.mem_map_of_mem _ hc

/-- A concrete task that uses the build cache, with one volume and one
root child. -/
def exampleBuildkitTask : TaskModel :=
  { Networks := []
    RegistryNames := []
    InitBuildkitContainer := true
    Volumes := ["vol1".data]
    RootChildren := ["c1".data] }

/-- Oracles under which every collaborator succeeds and the barrier
returns nil. -/
def exampleClearOracles : RunTaskOracles :=
  { networkErr := fun _ => none
    configErr := none
    loginErr := fun _ => none
    buildkitErr := none
    volumeErr := fun _ => none
    barrierOutcome := RunOutcome.nilRet
    digestErr := none }

/-- Oracles identical to `exampleClearOracles` except that the buildkitd
initialization fails. -/
def exampleBuildkitFailOracles : RunTaskOracles :=
  { networkErr := fun _ => none
    configErr := none
    loginErr := fun _ => none
    buildkitErr := some "boom".data
    volumeErr := fun _ => none
    barrierOutcome := RunOutcome.nilRet
    digestErr := none }

/-- Witness for C9: on the concrete task, a failed buildkitd
initialization still yields a nil return and the volume is still
prepared. -/
theorem buildkit_init_error_only_logged_witness :
    (runTaskModel exampleBuildkitTask exampleBuildkitFailOracles).1 =
      none ∧
    RunTaskEffect.prepareVolume "vol1".data ∈
      (runTaskModel exampleBuildkitTask exampleBuildkitFailOracles).2 :=
  ⟨(buildkit_init_error_only_logged exampleBuildkitTask
      exampleBuildkitFailOracles "boom".data rfl rfl (fun _ => rfl) rfl
      (fun _ => rfl) (fun _ => rfl) rfl rfl).1,
   (buildkit_init_error_only_logged exampleBuildkitTask
      exampleBuildkitFailOracles "boom".data rfl rfl (fun _ => rfl) rfl
      (fun _ => rfl) (fun _ => rfl) rfl rfl).2.2.1 "vol1".data
     (by decide)⟩

/-- Recognizer for the buildkitd-initialization effect. -/
def isBuildkitInitEffect : RunTaskEffect → Bool
  | RunTaskEffect.buildkitInit => true
  | _ => false

/-- The effect trace of a sequence of `RunTask` calls, one per
task-and-oracles pair, modelling several tasks run in one process
lifetime. -/
def runTasksTrace : List (TaskModel × RunTaskOracles) → List RunTaskEffect
  | [] => []
  | p :: rest => (runTaskModel p.1 p.2).2 ++ runTasksTrace rest

/-- Sequencing two sections free of buildkitd initializations yields a
trace free of them. -/
lemma seqRT_countBk_zero {p : Option GoError × List RunTaskEffect}
    {k : Unit → Option GoError × List RunTaskEffect}
    (hp : (p.2).countP isBuildkitInitEffect = 0)
    (hk : ((k ()).2).countP isBuildkitInitEffect = 0) :
    ((seqRT p k).2).countP isBuildkitInitEffect = 0 := by
  unfold seqRT
  cases hc : p.1 <;> simp [List.countP_append, hp, hk]

/-- The network loop performs no buildkitd initialization. -/
lemma networksSection_countBk (ne : Str → Option GoError) :
    ∀ nets, ((networksSection ne nets).2).countP isBuildkitInitEffect
      = 0 := by
  intro nets
  induction nets with
  | nil => rfl
  | cons n rest ih =>
    unfold networksSection
    split
    · exact ih
    · cases ne n.Name with
      | some e => simp [List.countP_cons, isBuildkitInitEffect]
      | none => simp [List.countP_cons, isBuildkitInitEffect, ih]

/-- The configuration section performs no buildkitd initialization. -/
lemma configSection_countBk (ce : Option GoError) :
    ((configSection ce).2).countP isBuildkitInitEffect = 0 := by
  cases ce <;> rfl

/-- The login loop performs no buildkitd initialization. -/
lemma loginSection_countBk (le : Str → Option GoError) :
    ∀ rs, ((loginSection le rs).2).countP isBuildkitInitEffect = 0 := by
  intro rs
  induction rs with
  | nil => rfl
  | cons r rest ih =>
    unfold loginSection
    cases le r with
    | some e => simp [List.countP_cons, isBuildkitInitEffect]
    | none => simp [List.countP_cons, isBuildkitInitEffect, ih]

/-- The volume loop performs no buildkitd initialization. -/
lemma volumesSection_countBk (ve : Str → Option GoError) :
    ∀ vs, ((volumesSection ve vs).2).countP isBuildkitInitEffect = 0 := by
  intro vs
  induction vs with
  | nil => rfl
  | cons v rest ih =>
    unfold volumesSection
    cases ve v with
    | some e => simp [List.countP_cons, isBuildkitInitEffect]
    | none => simp [List.countP_cons, isBuildkitInitEffect, ih]

/-- The barrier and digest section performs no buildkitd
initialization. -/
lemma barrierSection_countBk (bo : RunOutcome) (de : Option GoError) :
    ((barrierSection bo de).2).countP isBuildkitInitEffect = 0 := by
  cases bo <;> cases de <;> rfl

/-- The buildkitd section initializes exactly once when the task uses the
build cache, and never otherwise. -/
lemma buildkitSection_countBk (initBuildkit : Bool) (be : Option GoError) :
    ((buildkitSection initBuildkit be).2).countP isBuildkitInitEffect =
      if initBuildkit then 1 else 0 := by
  cases initBuildkit <;> cases be <;> rfl

/-- One `RunTask` call whose pre-buildkit sections succeed performs the
buildkitd initialization exactly once when the task uses the build cache,
and never otherwise. -/
lemma runTaskModel_countBk (task : TaskModel) (o : RunTaskOracles)
    (h1 : ∀ s, o.networkErr s = none) (h2 : o.configErr = none)
    (h3 : ∀ s, o.loginErr s = none) :
    ((runTaskModel task o).2).countP isBuildkitInitEffect =
      if task.InitBuildkitContainer then 1 else 0 := by
  unfold runTaskModel
  rw [seqRT_none (networksSection_fst_clear o.networkErr h1 task.Networks),
    seqRT_none (show (configSection o.configErr).1 = none by rw [h2]; rfl),
    seqRT_none (loginSection_fst_clear o.loginErr h3 task.RegistryNames),
    seqRT_none (buildkitSection_fst _ _)]
  have htail : (((seqRT (volumesSection o.volumeErr task.Volumes) (fun _ =>
      seqRT (none, task.RootChildren.map RunTaskEffect.spawnRootWorker)
        (fun _ => barrierSection o.barrierOutcome o.digestErr))).2)).countP
      isBuildkitInitEffect = 0 := by
    refine seqRT_countBk_zero (volumesSection_countBk _ _)
      (seqRT_countBk_zero ?_ (barrierSection_countBk _ _))
    rw [List.countP_map]
    exact List.countP_eq_zero.mpr
      (fun c _ => by simp [Function.comp, isBuildkitInitEffect])
  simp [List.countP_append, networksSection_countBk,
    configSection_countBk, loginSection_countBk, buildkitSection_countBk,
    htail]

/-- Counterexample to claim C6 as stated: running two tasks that require
the build cache executes the buildkitd container initialization body
twice in one process lifetime — it is not gated by the one-shot latch
(which line 339 uses for the Windows pre-run instead), so "at most once"
fails. -/
theorem buildkit_once_latch_counterexample :
    ¬ ((runTasksTrace
          [(exampleBuildkitTask, exampleClearOracles),
           (exampleBuildkitTask, exampleClearOracles)]).countP
        isBuildkitInitEffect ≤ 1) := by
  decide

/-- Claim C6 — corrected.  The buildkitd container initialization body is
not gated by the one-shot latch: across a process lifetime it executes
once per `RunTask` call whose task requires the build cache (and whose
network, configuration and login setup succeed), however many such tasks
are run. -/
theorem buildkit_init_per_task_amended
    (runs : List (TaskModel × RunTaskOracles))
    (h : ∀ p ∈ runs, (∀ s, p.2.networkErr s = none) ∧
      p.2.configErr = none ∧ (∀ s, p.2.loginErr s = none)) :
    (runTasksTrace runs).countP isBuildkitInitEffect =
      (runs.filter (fun p => p.1.InitBuildkitContainer)).length := by
  induction runs with
  | nil => rfl
  | cons p rest ih =>
    have hp := h p (List.mem_cons_self p rest)
    have hrest := fun q hq => h q (List.mem_cons_of_mem p hq)
    rw [runTasksTrace, List.countP_append,
      runTaskModel_countBk p.1 p.2 hp.1 hp.2.1 hp.2.2, ih hrest,
      List.filter_cons]
    by_cases hb : p.1.InitBuildkitContainer <;> simp [hb, Nat.add_comm]

/-- Witness for C6's amended theorem: a single build-cache task under
clear oracles initializes buildkitd exactly once. -/
theorem buildkit_init_per_task_amended_witness :
    (runTasksTrace [(exampleBuildkitTask, exampleClearOracles)]).countP
        isBuildkitInitEffect =
      ([(exampleBuildkitTask, exampleClearOracles)].filter
        (fun p => p.1.InitBuildkitContainer)).length :=
  buildkit_init_per_task_amended
    [(exampleBuildkitTask, exampleClearOracles)]
    (by
      intro p hp
      rw [List.mem_singleton] at hp
      subst hp
      exact ⟨fun _ => rfl, rfl, fun _ => rfl⟩)
